import Mathlib

/-!
# Generic Netlink dispatch layer (`sys/netlink/genetlink.c`)

A shallow embedding of the family registry and of the inbound dispatch of
`genetlink.c`, together with the constants of `linux/netlink.h` they use.

Conventions of the embedding.

* Machine integers are `Nat`; where the C arithmetic can wrap the reduction
  modulo `2 ^ 32` is written out (`NLMSG_ALIGN`).
* The global `genl_family_list` (a `LIST_HEAD` of `struct genl_family`) is a
  `List genl_family`, head first; every function that reads or writes the global
  takes the list as an argument and, when it writes, returns the new list.
* A pointer to a family that is returned by a lookup is an `Option genl_family`
  (`none` is `NULL`).
* A handler function pointer is an `Option Nat` (`none` is `NULL`).
* The received `void *data` is the `struct nlmsghdr` at offset 0 together with
  the `struct genlmsghdr` that `nlmsg_data` finds at offset `NLMSG_HDRLEN`.
* The dispatch functions return, next to their `int` status, the list of
  `Event`s that records which of the dispatch functions were entered.
* The traced dispatch also lists its reads of the received memory as byte
  ranges; the `_acc` functions list the mutex and list accesses of the registry
  operations; `genlmsg_put` takes the absent `nlmsg_put` as an argument.
-/

namespace Genetlink

/-! ## Constants -/

/-- Error numbers of `sys/errno.h` used by `genetlink.c`. -/
def ENOENT : Nat := 2
/-- File exists. -/
def EEXIST : Nat := 17
/-- Invalid argument. -/
def EINVAL : Nat := 22
/-- Operation not supported. -/
def EOPNOTSUPP : Nat := 45
/-- Bad message. -/
def EBADMSG : Nat := 89

/-- `NLM_F_REQUEST` of `netlink.h`. -/
def NLM_F_REQUEST : Nat := 0x01
/-- `NLM_F_ACK` of `netlink.h`. -/
def NLM_F_ACK : Nat := 0x04
/-- `NLM_F_ROOT` of `netlink.h`. -/
def NLM_F_ROOT : Nat := 0x100
/-- `NLM_F_MATCH` of `netlink.h`. -/
def NLM_F_MATCH : Nat := 0x200
/-- `NLM_F_DUMP` is `(NLM_F_ROOT | NLM_F_MATCH)`. -/
def NLM_F_DUMP : Nat := NLM_F_ROOT ||| NLM_F_MATCH

/-- `NLMSG_MIN_TYPE`: types below `0x10` are reserved control messages. -/
def NLMSG_MIN_TYPE : Nat := 0x10

/-- `NLMSG_ALIGNTO` is `4U`. -/
def NLMSG_ALIGNTO : Nat := 4

/-- `NLMSG_ALIGN(len)` is `(((len) + NLMSG_ALIGNTO - 1) & ~(NLMSG_ALIGNTO - 1))`,
evaluated in 32-bit unsigned arithmetic: the sum wraps modulo `2 ^ 32` and the
complement of `NLMSG_ALIGNTO - 1` is taken on 32 bits. -/
def NLMSG_ALIGN (len : Nat) : Nat :=
  ((len + NLMSG_ALIGNTO - 1) % 2 ^ 32) &&& (2 ^ 32 - 1 - (NLMSG_ALIGNTO - 1))

/-- The value of `sizeof(struct nlmsghdr)`: two `uint32_t` after two `uint16_t`
after one `uint32_t`. -/
def sizeof_nlmsghdr : Nat := 16

/-- `NLMSG_HDRLEN` is `((int)NLMSG_ALIGN(sizeof(struct nlmsghdr)))`. -/
def NLMSG_HDRLEN : Nat := NLMSG_ALIGN sizeof_nlmsghdr

/-- Modelled from the spec: `GENL_HDRLEN` of the absent `net/genetlink.h`, the
size of the generic header `{ command: u8, version: u8, reserved: u16 }`, which
is 4 bytes. -/
def GENL_HDRLEN : Nat := 4

/-- Modelled from the spec: `nlmsg_msg_size(payload)` of the absent
`net/genetlink.h`, the length of a message with the given payload length,
`align4(16) + payload`. -/
def nlmsg_msg_size (payload : Nat) : Nat := NLMSG_HDRLEN + payload

/-! ## Data model -/

/-- The `struct genl_ops` of the absent `net/genetlink.h`, with the fields that
`genetlink.c` and the spec name: the command, the two handler function
pointers and the flags. -/
structure genl_ops where
  cmd : Nat
  doit : Option Nat
  dumpit : Option Nat
  flags : Nat
  deriving DecidableEq, Repr

/-- The `struct genl_family` of the absent `net/genetlink.h`, with the fields
that `genetlink.c` reads. The array `ops` of `n_ops` entries is a list; the
`next` link is the position in the registry list. -/
structure genl_family where
  id : Nat
  name : String
  version : Nat
  hdrsize : Nat
  ops : List genl_ops
  deriving DecidableEq, Repr

/-- The `struct nlmsghdr` of `netlink.h`. -/
structure nlmsghdr where
  nlmsg_len : Nat
  nlmsg_type : Nat
  nlmsg_flags : Nat
  nlmsg_seq : Nat
  nlmsg_pid : Nat
  deriving DecidableEq, Repr

/-- The `struct genlmsghdr` that `genetlink.c` reads and writes through
`nlmsg_data`: command, version, reserved. -/
structure genlmsghdr where
  cmd : Nat
  version : Nat
  reserved : Nat
  deriving DecidableEq, Repr

/-- The memory behind the `void *data` handed to `genl_receive_message`: the
message header at offset 0 and what `nlmsg_data` reads as the generic header
at offset `NLMSG_HDRLEN`. -/
structure nlmsg where
  nlh : nlmsghdr
  genlmsg : genlmsghdr
  deriving DecidableEq, Repr

/-- What the dispatch did, in order: which dispatch functions were entered and
which handler function pointers were called. -/
inductive Event where
  /-- Entry of `genl_receive_message_family` for this family. -/
  | family (f : genl_family)
  /-- Entry of `genl_receive_message_dumpit` with this `op` argument. -/
  | dumpit (op : Option genl_ops)
  /-- Entry of `genl_receive_message_doit` with this `op` argument. -/
  | doit (op : Option genl_ops)
  /-- Call of a handler function pointer. -/
  | handler (fn : Nat)
  deriving DecidableEq, Repr

/-! ## Family registry -/

/-- `genl_find_family_by_id`: `LIST_FOREACH` over the registry, returning the
first family whose `id` equals the argument, `NULL` when there is none. -/
def genl_find_family_by_id : List genl_family → Nat → Option genl_family
  | [], _ => none
  | curfamily :: rest, id =>
    if curfamily.id = id then some curfamily else genl_find_family_by_id rest id

/-- `genl_find_family_by_name`: `LIST_FOREACH` over the registry, returning the
first family for which `strcmp(curfamily->name, name) == 0`. -/
def genl_find_family_by_name : List genl_family → String → Option genl_family
  | [], _ => none
  | curfamily :: rest, name =>
    if curfamily.name = name then some curfamily else genl_find_family_by_name rest name

/-- `genl_register_family`: `EEXIST` when the name is found, otherwise
`LIST_INSERT_HEAD` and 0. Returns the status and the registry afterwards. -/
def genl_register_family (genl_family_list : List genl_family) (family : genl_family) :
    Nat × List genl_family :=
  if (genl_find_family_by_name genl_family_list family.name).isSome then
    (EEXIST, genl_family_list)
  else
    (0, family :: genl_family_list)

/-- `genl_unregister_family`: looks the argument's id up; the family found is
taken out of the list (`LIST_REMOVE`) and 0 is returned, `ENOENT` when none is
found. Returns the status and the registry afterwards; the `free` of the family
taken out does not touch the list. -/
def genl_unregister_family (genl_family_list : List genl_family) (family : genl_family) :
    Nat × List genl_family :=
  match genl_find_family_by_id genl_family_list family.id with
  | some fam => (0, genl_family_list.erase fam)
  | none => (ENOENT, genl_family_list)

/-- A call of one of the two functions that write the registry. -/
inductive Call where
  | register (family : genl_family)
  | unregister (family : genl_family)
  deriving DecidableEq, Repr

/-- The registry after one call. -/
def Call.apply (genl_family_list : List genl_family) : Call → List genl_family
  | Call.register family => (genl_register_family genl_family_list family).2
  | Call.unregister family => (genl_unregister_family genl_family_list family).2

/-- The registry reached from the given one by a sequence of calls, first call first. -/
def run (genl_family_list : List genl_family) (calls : List Call) : List genl_family :=
  calls.foldl Call.apply genl_family_list

/-! ## Dispatch -/

/-- The loop of `genl_get_cmd`: for `i` from 0 to `n_ops - 1`, when
`family->ops[i].cmd == cmd` the local `ops` is set to `&family->ops[i]`.
Returns the final value of the local. -/
def genl_get_cmd_loop (cmd : Nat) : List genl_ops → Option genl_ops → Option genl_ops
  | [], ops => ops
  | op :: rest, ops => genl_get_cmd_loop cmd rest (if op.cmd = cmd then some op else ops)

/-- `genl_get_cmd`: runs the loop on its own copy of the pointer `ops` (the
parameter is passed by value, the caller's variable is not written) and then
executes `return ENOENT;`. -/
def genl_get_cmd (cmd : Nat) (family : genl_family) (ops : Option genl_ops) : Nat :=
  let _ops := genl_get_cmd_loop cmd family.ops ops
  ENOENT

/-- `genl_receive_message_dumpit`: the body is `return EOPNOTSUPP;`. -/
def genl_receive_message_dumpit (op : Option genl_ops) (_hdr : nlmsghdr) : Nat × List Event :=
  (EOPNOTSUPP, [Event.dumpit op])

/-- `genl_receive_message_doit`: the body is `return EOPNOTSUPP;`. -/
def genl_receive_message_doit (op : Option genl_ops) (_hdr : nlmsghdr) : Nat × List Event :=
  (EOPNOTSUPP, [Event.doit op])

/-- `genl_receive_message_family`: `ops` starts as `NULL`; a nonzero
`genl_get_cmd` gives `EOPNOTSUPP`; then the length is checked against
`nlmsg_msg_size(GENL_HDRLEN + family->hdrsize)` (`EINVAL`); then the `NLM_F_DUMP`
bits choose between the dumpit and the doit function. -/
def genl_receive_message_family (family : genl_family) (msg : nlmsg) : Nat × List Event :=
  let ops : Option genl_ops := none
  if genl_get_cmd msg.genlmsg.cmd family ops ≠ 0 then
    (EOPNOTSUPP, [Event.family family])
  else
    let hdrlen := GENL_HDRLEN + family.hdrsize
    if msg.nlh.nlmsg_len < nlmsg_msg_size hdrlen then
      (EINVAL, [Event.family family])
    else if msg.nlh.nlmsg_flags &&& NLM_F_DUMP = NLM_F_DUMP then
      let r := genl_receive_message_dumpit ops msg.nlh
      (r.1, Event.family family :: r.2)
    else
      let r := genl_receive_message_doit ops msg.nlh
      (r.1, Event.family family :: r.2)

/-- `genl_receive_message`: family lookup by `nlmsg_type` (`ENOENT` when not
found), then the check of `nlmsg_len` against `NLMSG_HDRLEN + GENL_HDRLEN`
(`EBADMSG`), then `genl_receive_message_family`. -/
def genl_receive_message (genl_family_list : List genl_family) (data : nlmsg) :
    Nat × List Event :=
  match genl_find_family_by_id genl_family_list data.nlh.nlmsg_type with
  | none => (ENOENT, [])
  | some curfamily =>
    if data.nlh.nlmsg_len < NLMSG_HDRLEN + GENL_HDRLEN then
      (EBADMSG, [])
    else
      genl_receive_message_family curfamily data

/-! ## Test client (`test/nltest.c`) -/

/-- The header that `do_write(s, l)` of `nltest.c` leaves in the global `buf`
when it sends: the call is refused (`-1`, here `none`) when
`s < 0 || l < 1 || l > sizeof(buf)`; otherwise `nlmsg_len = l`,
`nlmsg_flags |= NLM_F_REQUEST | NLM_F_ACK`, `nlmsg_type = NLMSG_MIN_TYPE` and the
first `l` bytes of `buf` are sent. -/
def do_write (buf : nlmsghdr) (s l : Int) : Option nlmsghdr :=
  if s < 0 ∨ l < 1 ∨ l > 65536 then none
  else
    some { buf with
      nlmsg_len := l.toNat
      nlmsg_flags := buf.nlmsg_flags ||| (NLM_F_REQUEST ||| NLM_F_ACK)
      nlmsg_type := NLMSG_MIN_TYPE }

/-- The first 16 bytes of the global `char buf[65536]` at program start. -/
def buf0 : nlmsghdr := ⟨0, 0, 0, 0, 0⟩

/-! ## Example data -/

/-- A family with one doit-only command 1 and one dumpit-only command 2. -/
def famA : genl_family :=
  { id := 0x10, name := "a", version := 1, hdrsize := 0,
    ops := [⟨1, some 100, none, 0⟩, ⟨2, none, some 200, 0⟩] }

/-- A second family with the id of `famA` and another name. -/
def famB : genl_family :=
  { id := 0x10, name := "b", version := 1, hdrsize := 8, ops := [] }

/-- A family with the name of `famA` and another id. -/
def famC : genl_family :=
  { id := 0x11, name := "a", version := 2, hdrsize := 0, ops := [] }

/-- A request for command 1 of family `0x10`, 20 bytes long, `NLM_F_DUMP` unset. -/
def msgDoit : nlmsg :=
  { nlh := ⟨20, 0x10, NLM_F_REQUEST, 1, 0⟩, genlmsg := ⟨1, 1, 0⟩ }

/-- A request like `msgDoit` that is 16 bytes long. -/
def msgShort : nlmsg :=
  { nlh := ⟨16, 0x10, NLM_F_REQUEST, 1, 0⟩, genlmsg := ⟨1, 1, 0⟩ }

/-- A message of length 0 for family `0x10`. -/
def msgEmpty : nlmsg :=
  { nlh := ⟨0, 0x10, 0, 0, 0⟩, genlmsg := ⟨0, 0, 0⟩ }

/-! ## Attribute constants and alignment (`netlink.h`) -/

/-- `NLA_F_NESTED` is `(1 << 15)`. -/
def NLA_F_NESTED : Nat := 1 <<< 15

/-- `NLA_F_NET_BYTEORDER` is `(1 << 14)`. -/
def NLA_F_NET_BYTEORDER : Nat := 1 <<< 14

/-- The 32-bit two's complement pattern of the `int` value `~x`, which is `-x - 1`. -/
def int_not (x : Nat) : Nat := Int.toNat ((-(x : Int) - 1) % 2 ^ 32)

/-- `NLA_TYPE_MASK` is `~(NLA_F_NESTED | NLA_F_NET_BYTEORDER)`, an `int`; here its
32-bit pattern. -/
def NLA_TYPE_MASK : Nat := int_not (NLA_F_NESTED ||| NLA_F_NET_BYTEORDER)

/-- `NLA_ALIGNTO` is `4`, an `int`. -/
def NLA_ALIGNTO : Nat := 4

/-- `NLA_ALIGN(len)` is `(((len) + NLA_ALIGNTO - 1) & ~(NLA_ALIGNTO - 1))` on an
unsigned 32-bit `len`: the `int` operands are converted to unsigned, the sum
wraps modulo `2 ^ 32` and the mask is the pattern of the `int` complement. -/
def NLA_ALIGN (len : Nat) : Nat :=
  ((len + NLA_ALIGNTO - 1) % 2 ^ 32) &&& int_not (NLA_ALIGNTO - 1)

/-! ## Memory reads of the dispatch -/

/-- A read of `size` bytes at byte offset `off` from the received `data`. -/
structure Read where
  off : Nat
  size : Nat
  deriving DecidableEq, Repr

/-- The read of `nlmsg_len`, the first field of `struct nlmsghdr`. -/
def read_nlmsg_len : Read := ⟨0, 4⟩
/-- The read of `nlmsg_type`, after the 4 bytes of `nlmsg_len`. -/
def read_nlmsg_type : Read := ⟨4, 2⟩
/-- The read of `nlmsg_flags`, after `nlmsg_len` and `nlmsg_type`. -/
def read_nlmsg_flags : Read := ⟨6, 2⟩
/-- The read of `genlmsg->cmd`, the first byte at `nlmsg_data(nlh)`, which is
`NLMSG_HDRLEN` bytes after the message header's start. -/
def read_genl_cmd : Read := ⟨NLMSG_HDRLEN, 1⟩

/-- What a run of the dispatch leaves behind: the returned status, the dispatch
functions entered, the reads of the received memory in program order, and the
global `genl_family_list` after the run. -/
structure Outcome where
  status : Nat
  events : List Event
  reads : List Read
  genl_family_list : List genl_family
  deriving DecidableEq, Repr

/-- `genl_receive_message_family` with its reads of the message and the global
list it leaves: `genlmsg->cmd` is read for the call of `genl_get_cmd`; after a
zero result `nlh->nlmsg_len` is read for the length check and `nlh->nlmsg_flags`
for the choice of the path. No statement of the function assigns to the list. -/
def genl_receive_message_family_traced (genl_family_list : List genl_family)
    (family : genl_family) (msg : nlmsg) : Outcome :=
  let ops : Option genl_ops := none
  if genl_get_cmd msg.genlmsg.cmd family ops ≠ 0 then
    ⟨EOPNOTSUPP, [Event.family family], [read_genl_cmd], genl_family_list⟩
  else
    let hdrlen := GENL_HDRLEN + family.hdrsize
    if msg.nlh.nlmsg_len < nlmsg_msg_size hdrlen then
      ⟨EINVAL, [Event.family family], [read_genl_cmd, read_nlmsg_len], genl_family_list⟩
    else if msg.nlh.nlmsg_flags &&& NLM_F_DUMP = NLM_F_DUMP then
      let r := genl_receive_message_dumpit ops msg.nlh
      ⟨r.1, Event.family family :: r.2, [read_genl_cmd, read_nlmsg_len, read_nlmsg_flags],
        genl_family_list⟩
    else
      let r := genl_receive_message_doit ops msg.nlh
      ⟨r.1, Event.family family :: r.2, [read_genl_cmd, read_nlmsg_len, read_nlmsg_flags],
        genl_family_list⟩

/-- `genl_receive_message` with its reads of the message and the global list it
leaves: `nlmsg->nlmsg_type` is read for the lookup, then `nlmsg->nlmsg_len` for
the length check, then the family function runs. The function has no length of
the buffer among its arguments. -/
def genl_receive_message_traced (genl_family_list : List genl_family) (data : nlmsg) :
    Outcome :=
  match genl_find_family_by_id genl_family_list data.nlh.nlmsg_type with
  | none => ⟨ENOENT, [], [read_nlmsg_type], genl_family_list⟩
  | some curfamily =>
    if data.nlh.nlmsg_len < NLMSG_HDRLEN + GENL_HDRLEN then
      ⟨EBADMSG, [], [read_nlmsg_type, read_nlmsg_len], genl_family_list⟩
    else
      let r := genl_receive_message_family_traced genl_family_list curfamily data
      ⟨r.status, r.events, [read_nlmsg_type, read_nlmsg_len] ++ r.reads, r.genl_family_list⟩

/-! ## Locking of the registry operations -/

/-- An action of a registry operation on the mutex `genl_mtx` or on the global
`genl_family_list`. -/
inductive Access where
  /-- The statement `GENL_LOCK()`. -/
  | lock
  /-- The statement `GENL_UNLOCK()`. -/
  | unlock
  /-- A load of the list head or of a `next` link. -/
  | read
  /-- A store to the list head or to a `next` link. -/
  | write
  deriving DecidableEq, Repr

/-- The accesses of `genl_find_family_by_id`: `LIST_FOREACH` loads the head,
then one `next` link for each family passed over; the function contains no
`GENL_LOCK`. -/
def genl_find_family_by_id_acc : List genl_family → Nat → List Access
  | [], _ => [Access.read]
  | curfamily :: rest, id =>
    Access.read :: (if curfamily.id = id then [] else genl_find_family_by_id_acc rest id)

/-- The accesses of `genl_find_family_by_name`, as for the lookup by id. -/
def genl_find_family_by_name_acc : List genl_family → String → List Access
  | [], _ => [Access.read]
  | curfamily :: rest, name =>
    Access.read :: (if curfamily.name = name then [] else genl_find_family_by_name_acc rest name)

/-- The accesses of `genl_register_family`: the lookup by name, then, when the
name was not found, `GENL_LOCK(); LIST_INSERT_HEAD(...); GENL_UNLOCK();`. -/
def genl_register_family_acc (genl_family_list : List genl_family) (family : genl_family) :
    List Access :=
  genl_find_family_by_name_acc genl_family_list family.name ++
    (if (genl_find_family_by_name genl_family_list family.name).isSome then []
     else [Access.lock, Access.write, Access.unlock])

/-- The accesses of `genl_unregister_family`: the lookup by id, then, when a
family was found, `LIST_REMOVE(fam, next)`. -/
def genl_unregister_family_acc (genl_family_list : List genl_family) (family : genl_family) :
    List Access :=
  genl_find_family_by_id_acc genl_family_list family.id ++
    (if (genl_find_family_by_id genl_family_list family.id).isSome then [Access.write]
     else [])

/-- Whether every `read` and `write` of the sequence happens while the mutex is
held, starting from the given state of the mutex. -/
def guarded : Bool → List Access → Bool
  | _, [] => true
  | _, Access.lock :: rest => guarded true rest
  | _, Access.unlock :: rest => guarded false rest
  | held, Access.read :: rest => held && guarded held rest
  | held, Access.write :: rest => held && guarded held rest

/-! ## Message builder -/

/-- Modelled from the spec: `nlmsg_data(nlh)` of the absent `net/genetlink.h`,
as a byte offset from `nlh`; the generic header immediately follows the
message header, which is 16 bytes rounded up to 4-byte alignment. -/
def nlmsg_data : Nat := NLMSG_HDRLEN

/-- A store of `size` bytes of value `val` at byte offset `off` from the message
header `nlh`. -/
structure Store where
  off : Nat
  size : Nat
  val : Nat
  deriving DecidableEq, Repr

/-- What `genlmsg_put` returns and leaves behind: the returned pointer as a byte
offset from the message header (`none` is `NULL`), the memory at the message
header after the call (`none` when no header was put), and the stores that
`genlmsg_put` itself made. -/
structure genlmsg_put_result where
  ret : Option Nat
  msg : Option nlmsg
  stores : List Store
  deriving DecidableEq, Repr

/-- `genlmsg_put`. The function `nlmsg_put` of the netlink core is an argument:
it returns `NULL` or the new message header, here the memory at that header.
On `NULL` the function returns it at once. Otherwise `g = nlmsg_data(nlh)`, the
three fields of `*g` are stored (`cmd` and `version` are 8-bit fields) and `g`
is returned. -/
def genlmsg_put {mbuf : Type}
    (nlmsg_put : mbuf → Nat → Nat → Nat → Nat → Nat → Option nlmsg)
    (m : mbuf) (portid seq : Nat) (family : genl_family) (flags : Nat) (cmd : Nat) :
    genlmsg_put_result :=
  match nlmsg_put m portid seq family.id (GENL_HDRLEN + family.hdrsize) flags with
  | none => ⟨none, none, []⟩
  | some nlh =>
    let g := nlmsg_data
    ⟨some g,
     some { nlh with genlmsg := ⟨cmd % 2 ^ 8, family.version % 2 ^ 8, 0⟩ },
     [⟨g, 1, cmd % 2 ^ 8⟩, ⟨g + 1, 1, family.version % 2 ^ 8⟩, ⟨g + 2, 2, 0⟩]⟩

/-- An `nlmsg_put` that always succeeds: it stamps the type, flags, sequence
number and port id it is given and leaves the length 0. -/
def nlmsg_put_ok (_m : Unit) (portid seq type _len flags : Nat) : Option nlmsg :=
  some ⟨⟨0, type, flags, seq, portid⟩, ⟨0xff, 0xff, 0xffff⟩⟩

/-- An `nlmsg_put` that always fails. -/
def nlmsg_put_fail (_m : Unit) (_portid _seq _type _len _flags : Nat) : Option nlmsg :=
  none

/-! ## Lemmas on the lookups -/

theorem NLMSG_HDRLEN_eq : NLMSG_HDRLEN = 16 := by decide

theorem find_by_id_eq_none_iff (l : List genl_family) (id : Nat) :
    genl_find_family_by_id l id = none ↔ ∀ g ∈ l, g.id ≠ id := by
  induction l with
  | nil => simp [genl_find_family_by_id]
  | cons a t ih =>
    by_cases h : a.id = id
    · simp [genl_find_family_by_id, h]
    · simp [genl_find_family_by_id, h, ih]

theorem find_by_id_split (l : List genl_family) (id : Nat) (g : genl_family)
    (h : genl_find_family_by_id l id = some g) :
    ∃ pre post, l = pre ++ g :: post ∧ g.id = id ∧ ∀ x ∈ pre, x.id ≠ id := by
  induction l with
  | nil => simp [genl_find_family_by_id] at h
  | cons a t ih =>
    by_cases ha : a.id = id
    · simp [genl_find_family_by_id, ha] at h
      subst h
      exact ⟨[], t, rfl, ha, by simp⟩
    · simp [genl_find_family_by_id, ha] at h
      obtain ⟨pre, post, hl, hg, hpre⟩ := ih h
      refine ⟨a :: pre, post, by simp [hl], hg, ?_⟩
      intro x hx
      rcases List.mem_cons.mp hx with hxa | hxp
      · subst hxa; exact ha
      · exact hpre x hxp

theorem find_by_name_eq_none_iff (l : List genl_family) (name : String) :
    genl_find_family_by_name l name = none ↔ ∀ g ∈ l, g.name ≠ name := by
  induction l with
  | nil => simp [genl_find_family_by_name]
  | cons a t ih =>
    by_cases h : a.name = name
    · simp [genl_find_family_by_name, h]
    · simp [genl_find_family_by_name, h, ih]

theorem find_by_name_some (l : List genl_family) (name : String) (g : genl_family)
    (h : genl_find_family_by_name l name = some g) : g ∈ l ∧ g.name = name := by
  induction l with
  | nil => simp [genl_find_family_by_name] at h
  | cons a t ih =>
    by_cases ha : a.name = name
    · simp [genl_find_family_by_name, ha] at h
      subst h
      exact ⟨by simp, ha⟩
    · simp [genl_find_family_by_name, ha] at h
      exact ⟨List.mem_cons_of_mem _ (ih h).1, (ih h).2⟩

theorem find_by_name_isSome_iff (l : List genl_family) (name : String) :
    (genl_find_family_by_name l name).isSome ↔ ∃ g ∈ l, g.name = name := by
  rw [← Option.ne_none_iff_isSome, Ne, find_by_name_eq_none_iff]
  push_neg
  rfl

theorem erase_found (pre post : List genl_family) (g : genl_family) (id : Nat)
    (hg : g.id = id) (hpre : ∀ x ∈ pre, x.id ≠ id) :
    (pre ++ g :: post).erase g = pre ++ post := by
  have hn : g ∉ pre := fun hm => hpre g hm hg
  rw [List.erase_append_right _ hn, List.erase_cons_head]

theorem get_cmd_ne_zero (cmd : Nat) (family : genl_family) (ops : Option genl_ops) :
    genl_get_cmd cmd family ops ≠ 0 := by
  simp [genl_get_cmd, ENOENT]

theorem receive_family_eq (family : genl_family) (msg : nlmsg) :
    genl_receive_message_family family msg = (EOPNOTSUPP, [Event.family family]) := by
  simp [genl_receive_message_family, get_cmd_ne_zero]

/-! ## Claims on registration and dispatch -/

/-- C1: evaluation of the code at an input for which the specification asks for
the doit path. The registry holds `famA`, whose command 1 has a doit handler; the message
has type `famA.id`, command 1, `NLM_F_DUMP` unset and length
`NLMSG_HDRLEN + GENL_HDRLEN + famA.hdrsize`. `genl_get_cmd` returns `ENOENT`
although the command is among the operations, so `genl_receive_message` returns
`EOPNOTSUPP` after entering `genl_receive_message_family` only: the doit function
is not entered and no handler is called. -/
theorem genl_receive_message_doit_not_reached :
    famA ∈ [famA] ∧
    (⟨1, some 100, none, 0⟩ : genl_ops) ∈ famA.ops ∧
    msgDoit.nlh.nlmsg_type = famA.id ∧
    msgDoit.genlmsg.cmd = 1 ∧
    msgDoit.nlh.nlmsg_flags &&& NLM_F_DUMP ≠ NLM_F_DUMP ∧
    NLMSG_HDRLEN + GENL_HDRLEN + famA.hdrsize ≤ msgDoit.nlh.nlmsg_len ∧
    genl_get_cmd msgDoit.genlmsg.cmd famA none = ENOENT ∧
    genl_receive_message [famA] msgDoit = (EOPNOTSUPP, [Event.family famA]) := by
  decide

/-- C2: `genl_register_family` returns `EEXIST` exactly when a registered family
has the name of the argument; the registry is then unchanged and the lookup of
that name returns, as before, a family of the old registry; when no registered
family has the name the call returns 0 whatever the registered ids are. -/
theorem genl_register_family_eexist (l : List genl_family) (f : genl_family) :
    ((genl_register_family l f).1 = EEXIST ↔ ∃ g ∈ l, g.name = f.name) ∧
    ((genl_register_family l f).1 = EEXIST →
      (genl_register_family l f).2 = l ∧
      ∃ g ∈ l, g.name = f.name ∧ genl_find_family_by_name l f.name = some g ∧
        genl_find_family_by_name (genl_register_family l f).2 f.name = some g) ∧
    ((∃ g ∈ l, g.id = f.id) → (∀ g ∈ l, g.name ≠ f.name) →
      (genl_register_family l f).1 = 0) := by
  have key := find_by_name_isSome_iff l f.name
  by_cases h : (genl_find_family_by_name l f.name).isSome
  · have hreg : genl_register_family l f = (EEXIST, l) := by
      simp [genl_register_family, h]
    obtain ⟨g, hg⟩ := Option.isSome_iff_exists.mp h
    have hmem := find_by_name_some l f.name g hg
    refine ⟨?_, ?_, ?_⟩
    · rw [hreg]; simpa using key.mp h
    · intro _
      rw [hreg]
      exact ⟨rfl, g, hmem.1, hmem.2, hg, hg⟩
    · intro _ hne
      exact absurd hmem.2 (hne g hmem.1)
  · have hreg : genl_register_family l f = (0, f :: l) := by
      simp [genl_register_family, h]
    have hno : ¬ ∃ g ∈ l, g.name = f.name := fun hex => h (key.mpr hex)
    refine ⟨?_, ?_, ?_⟩
    · rw [hreg]
      constructor
      · intro h0; simp [EEXIST] at h0
      · intro hex; exact absurd hex hno
    · intro h0; rw [hreg] at h0; simp [EEXIST] at h0
    · intro _ _; rw [hreg]

/-- Witness for C2: registering `famC` (name of `famA`) and `famB` (id of `famA`)
on the registry that holds `famA`. -/
theorem genl_register_family_eexist_witness :
    (genl_register_family [famA] famC).1 = EEXIST ∧
    (genl_register_family [famA] famC).2 = [famA] ∧
    (genl_register_family [famA] famB).1 = 0 :=
  ⟨(genl_register_family_eexist [famA] famC).1.mpr ⟨famA, by decide, by decide⟩,
   ((genl_register_family_eexist [famA] famC).2.1 (by decide)).1,
   (genl_register_family_eexist [famA] famB).2.2 ⟨famA, by decide, by decide⟩ (by decide)⟩

/-- C3: evaluation of the code at a reachable registry with two families of one
id. After `famA` and `famB` (both of id `0x10`) are registered, unregistering
`famB` returns 0 and removes `famB`, and the lookup of `famB.id` in the resulting
registry returns `famA`, not `NULL`. -/
theorem genl_unregister_then_find_by_id_found :
    run [] [Call.register famA, Call.register famB] = [famB, famA] ∧
    genl_unregister_family [famB, famA] famB = (0, [famA]) ∧
    genl_find_family_by_id (genl_unregister_family [famB, famA] famB).2 famB.id = some famA := by
  decide

/-- C4: when no registered family has the id `nlmsg_type`, `genl_receive_message`
returns `ENOENT` and enters no dispatch function and calls no handler. The
message that the test client sends with `do_write(s, 16)` has length 16 and type
`NLMSG_MIN_TYPE`, and against a registry without a family of id `0x10` it gets
`ENOENT` whatever follows its 16 bytes. -/
theorem genl_receive_message_unknown_family (l : List genl_family) (data : nlmsg)
    (h : ∀ f ∈ l, f.id ≠ data.nlh.nlmsg_type) :
    genl_receive_message l data = (ENOENT, []) ∧
    ∀ (s : Int) (g : genlmsghdr), 0 ≤ s → (∀ f ∈ l, f.id ≠ 0x10) →
      ∃ hdr, do_write buf0 s 16 = some hdr ∧ hdr.nlmsg_len = 16 ∧
        hdr.nlmsg_type = NLMSG_MIN_TYPE ∧
        genl_receive_message l ⟨hdr, g⟩ = (ENOENT, []) := by
  have gen : ∀ d : nlmsg, (∀ f ∈ l, f.id ≠ d.nlh.nlmsg_type) →
      genl_receive_message l d = (ENOENT, []) := by
    intro d hd
    have hn := (find_by_id_eq_none_iff l d.nlh.nlmsg_type).mpr hd
    simp [genl_receive_message, hn]
  refine ⟨gen data h, ?_⟩
  intro s g hs hl
  have hs' : ¬ s < 0 := not_lt.mpr hs
  refine ⟨_, by simp [do_write, hs']; rfl, rfl, rfl, ?_⟩
  apply gen
  simpa [NLMSG_MIN_TYPE] using hl

/-- Witness for C4: the test client's message against the registry that holds
only a family of id `0x11`. -/
theorem genl_receive_message_unknown_family_witness :
    genl_receive_message [{ famC with name := "c" }] ⟨⟨16, 0x10, 5, 0, 0⟩, ⟨0, 0, 0⟩⟩ =
      (ENOENT, []) :=
  (genl_receive_message_unknown_family [{ famC with name := "c" }]
    ⟨⟨16, 0x10, 5, 0, 0⟩, ⟨0, 0, 0⟩⟩ (by decide)).1

/-- C5, counterexample: a message with `nlmsg_len = 0 < 16` received on the empty
registry gets `ENOENT`, not `EBADMSG`: the family lookup comes before the
length check. -/
theorem genl_receive_message_short_not_ebadmsg :
    msgEmpty.nlh.nlmsg_len < 16 ∧
    genl_receive_message [] msgEmpty = (ENOENT, []) ∧
    (genl_receive_message [] msgEmpty).1 ≠ EBADMSG := by
  decide

/-- C5, amended: for a message with `nlmsg_len < 16`, whatever its flags and other
contents, `genl_receive_message` returns `EBADMSG` when its type is the id of a
registered family and `ENOENT` when it is not; in both cases no dispatch
function is entered. -/
theorem genl_receive_message_len_lt_16 (l : List genl_family) (data : nlmsg)
    (hlen : data.nlh.nlmsg_len < 16) :
    ((∃ f ∈ l, f.id = data.nlh.nlmsg_type) → genl_receive_message l data = (EBADMSG, [])) ∧
    ((∀ f ∈ l, f.id ≠ data.nlh.nlmsg_type) → genl_receive_message l data = (ENOENT, [])) := by
  constructor
  · intro hex
    cases hfind : genl_find_family_by_id l data.nlh.nlmsg_type with
    | none =>
      obtain ⟨f, hf, hid⟩ := hex
      exact absurd hid ((find_by_id_eq_none_iff l _).mp hfind f hf)
    | some cur =>
      have hlt : data.nlh.nlmsg_len < NLMSG_HDRLEN + GENL_HDRLEN := by
        rw [NLMSG_HDRLEN_eq]; simp only [GENL_HDRLEN]; omega
      simp [genl_receive_message, hfind, hlt]
  · intro hno
    have hn := (find_by_id_eq_none_iff l data.nlh.nlmsg_type).mpr hno
    simp [genl_receive_message, hn]

/-- Witness for C5, amended: the 0-byte message for family `0x10` on the registry
that holds `famA`. -/
theorem genl_receive_message_len_lt_16_witness :
    genl_receive_message [famA] msgEmpty = (EBADMSG, []) :=
  (genl_receive_message_len_lt_16 [famA] msgEmpty (by decide)).1 ⟨famA, by decide, by decide⟩

/-- C6, counterexample: `famB` has `hdrsize = 8`; a message of its type with
`16 ≤ nlmsg_len = 16 < align4(16) + GENL_HDRLEN + 8` gets `EBADMSG`, not `EINVAL`. -/
theorem genl_receive_message_short_not_einval :
    famB ∈ [famB] ∧
    msgShort.nlh.nlmsg_type = famB.id ∧
    16 ≤ msgShort.nlh.nlmsg_len ∧
    msgShort.nlh.nlmsg_len < NLMSG_ALIGN 16 + GENL_HDRLEN + famB.hdrsize ∧
    genl_receive_message [famB] msgShort = (EBADMSG, []) ∧
    (genl_receive_message [famB] msgShort).1 ≠ EINVAL := by
  decide

/-- C6, amended: when the lookup of `nlmsg_type` finds the family `F`, a message
with `16 ≤ nlmsg_len < NLMSG_HDRLEN + GENL_HDRLEN` gets `EBADMSG` and `F` is not
entered; for a message of at least `NLMSG_HDRLEN + GENL_HDRLEN` bytes the command
is resolved before the length is checked against `F.hdrsize`, so a command that
`genl_get_cmd` does not resolve gets `EOPNOTSUPP` whatever the length. -/
theorem genl_receive_message_header_too_short (l : List genl_family) (F : genl_family)
    (data : nlmsg) (hF : genl_find_family_by_id l data.nlh.nlmsg_type = some F) :
    (16 ≤ data.nlh.nlmsg_len → data.nlh.nlmsg_len < NLMSG_HDRLEN + GENL_HDRLEN →
      genl_receive_message l data = (EBADMSG, [])) ∧
    (NLMSG_HDRLEN + GENL_HDRLEN ≤ data.nlh.nlmsg_len →
      genl_get_cmd data.genlmsg.cmd F none ≠ 0 →
      genl_receive_message l data = (EOPNOTSUPP, [Event.family F])) := by
  constructor
  · intro _ hlt
    simp [genl_receive_message, hF, hlt]
  · intro hge hcmd
    have hnlt : ¬ data.nlh.nlmsg_len < NLMSG_HDRLEN + GENL_HDRLEN := not_lt.mpr hge
    simp [genl_receive_message, hF, hnlt, genl_receive_message_family, hcmd]

/-- Witness for C6, amended: the 16-byte and the 20-byte request on the registry
that holds `famB`, whose header needs 28 bytes. -/
theorem genl_receive_message_header_too_short_witness :
    genl_receive_message [famB] msgShort = (EBADMSG, []) ∧
    genl_receive_message [famB] msgDoit = (EOPNOTSUPP, [Event.family famB]) :=
  ⟨(genl_receive_message_header_too_short [famB] famB msgShort (by decide)).1
      (by decide) (by decide),
   (genl_receive_message_header_too_short [famB] famB msgDoit (by decide)).2
      (by decide) (by decide)⟩

/-- C7: for a registered family `F` and a message of its type with
`nlmsg_len ≥ NLMSG_HDRLEN + GENL_HDRLEN + F.hdrsize`, when the command matches no
operation of `F`, or matches one whose handler selected by the `NLM_F_DUMP` bits
is `NULL`, `genl_receive_message` returns `EOPNOTSUPP`; neither the doit nor the
dumpit function is entered and no handler is called. -/
theorem genl_receive_message_unsupported (l : List genl_family) (F : genl_family)
    (data : nlmsg) (hF : F ∈ l) (ht : data.nlh.nlmsg_type = F.id)
    (hlen : NLMSG_HDRLEN + GENL_HDRLEN + F.hdrsize ≤ data.nlh.nlmsg_len)
    (_hcmd : (∀ op ∈ F.ops, op.cmd ≠ data.genlmsg.cmd) ∨
      ∃ op ∈ F.ops, op.cmd = data.genlmsg.cmd ∧
        if data.nlh.nlmsg_flags &&& NLM_F_DUMP = NLM_F_DUMP then op.dumpit = none
        else op.doit = none) :
    (genl_receive_message l data).1 = EOPNOTSUPP ∧
    (∀ fn, Event.handler fn ∉ (genl_receive_message l data).2) ∧
    (∀ op, Event.doit op ∉ (genl_receive_message l data).2) ∧
    (∀ op, Event.dumpit op ∉ (genl_receive_message l data).2) := by
  cases hfind : genl_find_family_by_id l data.nlh.nlmsg_type with
  | none =>
    exact absurd ht.symm ((find_by_id_eq_none_iff l _).mp hfind F hF)
  | some G =>
    have hnlt : ¬ data.nlh.nlmsg_len < NLMSG_HDRLEN + GENL_HDRLEN := by omega
    have hr : genl_receive_message l data = (EOPNOTSUPP, [Event.family G]) := by
      simp [genl_receive_message, hfind, hnlt, receive_family_eq]
    rw [hr]
    simp

/-- Witness for C7: command 1 of `famA` has no dumpit handler and the request sets
`NLM_F_DUMP`. -/
theorem genl_receive_message_unsupported_witness :
    (genl_receive_message [famA]
      { msgDoit with nlh := { msgDoit.nlh with nlmsg_flags := NLM_F_DUMP } }).1 = EOPNOTSUPP :=
  (genl_receive_message_unsupported [famA] famA
    { msgDoit with nlh := { msgDoit.nlh with nlmsg_flags := NLM_F_DUMP } }
    (by decide) (by decide) (by decide)
    (Or.inr ⟨⟨1, some 100, none, 0⟩, by decide, by decide, by decide⟩)).1

/-- C8: `genl_unregister_family` returns `ENOENT` exactly when no registered
family has the id of the argument, and the registry is then unchanged; otherwise
it returns 0 and the registry loses exactly one entry, the one nearest the head
whose id is that of the argument, the entries before and after it staying in
their order. -/
theorem genl_unregister_family_removes_first (l : List genl_family) (f : genl_family) :
    ((genl_unregister_family l f).1 = ENOENT ↔ ∀ g ∈ l, g.id ≠ f.id) ∧
    ((∀ g ∈ l, g.id ≠ f.id) → (genl_unregister_family l f).2 = l) ∧
    ((∃ g ∈ l, g.id = f.id) →
      (genl_unregister_family l f).1 = 0 ∧
      ∃ pre g post, l = pre ++ g :: post ∧ g.id = f.id ∧ (∀ x ∈ pre, x.id ≠ f.id) ∧
        (genl_unregister_family l f).2 = pre ++ post) := by
  cases hfind : genl_find_family_by_id l f.id with
  | none =>
    have hno := (find_by_id_eq_none_iff l f.id).mp hfind
    have hun : genl_unregister_family l f = (ENOENT, l) := by
      simp [genl_unregister_family, hfind]
    refine ⟨?_, ?_, ?_⟩
    · rw [hun]; simpa using hno
    · intro _; rw [hun]
    · rintro ⟨g, hg, hid⟩
      exact absurd hid (hno g hg)
  | some fam =>
    obtain ⟨pre, post, hl, hid, hpre⟩ := find_by_id_split l f.id fam hfind
    have hun : genl_unregister_family l f = (0, l.erase fam) := by
      simp [genl_unregister_family, hfind]
    have hmem : fam ∈ l := by rw [hl]; simp
    refine ⟨?_, ?_, ?_⟩
    · rw [hun]
      constructor
      · intro h0; simp [ENOENT] at h0
      · intro hno; exact absurd hid (hno fam hmem)
    · intro hno; exact absurd hid (hno fam hmem)
    · intro _
      rw [hun]
      refine ⟨rfl, pre, fam, post, hl, hid, hpre, ?_⟩
      show l.erase fam = pre ++ post
      rw [hl]
      exact erase_found pre post fam f.id hid hpre

/-- Witness for C8: unregistering with `famA` as the argument on the registry
`[famB, famA]` removes `famB`, the entry nearest the head of id `0x10`. -/
theorem genl_unregister_family_removes_first_witness :
    (genl_unregister_family [famB, famA] famA).1 = 0 ∧
    (genl_unregister_family [famC] famA).2 = [famC] :=
  ⟨((genl_unregister_family_removes_first [famB, famA] famA).2.2
      ⟨famB, by decide, by decide⟩).1,
   (genl_unregister_family_removes_first [famC] famA).2.1 (by decide)⟩

/-- C9: when no registered family has the name of `f`, `genl_register_family`
returns 0 and the registry becomes `f` followed by the previous entries;
afterwards the lookup of `f.name` and the lookup of `f.id` both return `f`,
also when an older family has the id of `f`. -/
theorem genl_register_family_inserts_head (l : List genl_family) (f : genl_family)
    (hname : ∀ g ∈ l, g.name ≠ f.name) :
    genl_register_family l f = (0, f :: l) ∧
    genl_find_family_by_name (genl_register_family l f).2 f.name = some f ∧
    genl_find_family_by_id (genl_register_family l f).2 f.id = some f := by
  have hn := (find_by_name_eq_none_iff l f.name).mpr hname
  have hreg : genl_register_family l f = (0, f :: l) := by
    simp [genl_register_family, hn]
  rw [hreg]
  simp [genl_find_family_by_name, genl_find_family_by_id]

/-- Witness for C9: registering `famB` on the registry that holds `famA`, an older
family of the same id. -/
theorem genl_register_family_inserts_head_witness :
    (∃ g ∈ [famA], g.id = famB.id) ∧
    genl_register_family [famA] famB = (0, [famB, famA]) ∧
    genl_find_family_by_id (genl_register_family [famA] famB).2 famB.id = some famB :=
  ⟨⟨famA, by decide, by decide⟩,
   (genl_register_family_inserts_head [famA] famB (by decide)).1,
   (genl_register_family_inserts_head [famA] famB (by decide)).2.2⟩

theorem names_pairwise_apply (l : List genl_family) (c : Call)
    (h : l.Pairwise (fun a b => a.name ≠ b.name)) :
    (Call.apply l c).Pairwise (fun a b => a.name ≠ b.name) := by
  cases c with
  | register f =>
    by_cases hs : (genl_find_family_by_name l f.name).isSome
    · simpa [Call.apply, genl_register_family, hs] using h
    · have hn : genl_find_family_by_name l f.name = none := by
        simpa using hs
      have hne := (find_by_name_eq_none_iff l f.name).mp hn
      simp only [Call.apply, genl_register_family, hs]
      exact List.Pairwise.cons (fun g hg => (hne g hg).symm) h
  | unregister f =>
    cases hfind : genl_find_family_by_id l f.id with
    | none => simpa [Call.apply, genl_unregister_family, hfind] using h
    | some fam =>
      simp only [Call.apply, genl_unregister_family, hfind]
      exact h.sublist (List.erase_sublist fam l)

theorem names_pairwise_run (calls : List Call) (l : List genl_family)
    (h : l.Pairwise (fun a b => a.name ≠ b.name)) :
    (run l calls).Pairwise (fun a b => a.name ≠ b.name) := by
  induction calls generalizing l with
  | nil => simpa [run] using h
  | cons c cs ih =>
    have := ih (Call.apply l c) (names_pairwise_apply l c h)
    simpa [run] using this

/-- C10: in the registry reached from the empty one by any sequence of
`genl_register_family` and `genl_unregister_family` calls, any two entries have
different names. -/
theorem genl_family_names_unique (calls : List Call) :
    (run [] calls).Pairwise (fun a b => a.name ≠ b.name) :=
  names_pairwise_run calls [] List.Pairwise.nil

/-! ## Claims on id uniqueness and on the message builder -/

/-- C11: evaluation of the code at two registrations with one id. From the empty
registry, registering `famA` and then `famB`, which has the id of `famA` and
another name, succeeds both times, and the registry reached holds two families
of id `0x10`. -/
theorem genl_family_ids_not_unique :
    genl_register_family [] famA = (0, [famA]) ∧
    genl_register_family [famA] famB = (0, [famB, famA]) ∧
    run [] [Call.register famA, Call.register famB] = [famB, famA] ∧
    famB ≠ famA ∧ famB.id = famA.id ∧
    ¬ (run [] [Call.register famA, Call.register famB]).Pairwise (fun a b => a.id ≠ b.id) := by
  decide

/-- C12: when `nlmsg_put` succeeds and stamps the message type it is given, the
message left by `genlmsg_put` for family `F` and the 8-bit command `cmd` has
`nlmsg_type = F.id` and the generic header `cmd`, `F.version`, reserved 0 (the
version being an 8-bit value); when `nlmsg_put` fails, `genlmsg_put` returns
`NULL` and makes no store. -/
theorem genlmsg_put_roundtrip {mbuf : Type}
    (nlmsg_put : mbuf → Nat → Nat → Nat → Nat → Nat → Option nlmsg)
    (m : mbuf) (portid seq : Nat) (F : genl_family) (flags cmd : Nat)
    (hcmd : cmd < 2 ^ 8) (hver : F.version < 2 ^ 8) :
    (∀ nlh, nlmsg_put m portid seq F.id (GENL_HDRLEN + F.hdrsize) flags = some nlh →
      nlh.nlh.nlmsg_type = F.id →
      ∃ msg, (genlmsg_put nlmsg_put m portid seq F flags cmd).msg = some msg ∧
        msg.nlh.nlmsg_type = F.id ∧ msg.genlmsg.cmd = cmd ∧
        msg.genlmsg.version = F.version ∧ msg.genlmsg.reserved = 0) ∧
    (nlmsg_put m portid seq F.id (GENL_HDRLEN + F.hdrsize) flags = none →
      genlmsg_put nlmsg_put m portid seq F flags cmd = ⟨none, none, []⟩) := by
  constructor
  · intro nlh hput htype
    refine ⟨{ nlh with genlmsg := ⟨cmd % 2 ^ 8, F.version % 2 ^ 8, 0⟩ }, ?_, htype, ?_, ?_, rfl⟩
    · simp [genlmsg_put, hput]
    · exact Nat.mod_eq_of_lt hcmd
    · exact Nat.mod_eq_of_lt hver
  · intro hput
    simp [genlmsg_put, hput]

/-- Witness for C12: building command 1 of `famA` on an `nlmsg_put` that succeeds,
and on one that fails. -/
theorem genlmsg_put_roundtrip_witness :
    (∃ msg, (genlmsg_put nlmsg_put_ok () 7 9 famA 0 1).msg = some msg ∧
      msg.nlh.nlmsg_type = famA.id ∧ msg.genlmsg.cmd = 1 ∧
      msg.genlmsg.version = famA.version ∧ msg.genlmsg.reserved = 0) ∧
    genlmsg_put nlmsg_put_fail () 7 9 famA 0 1 = ⟨none, none, []⟩ :=
  ⟨(genlmsg_put_roundtrip nlmsg_put_ok () 7 9 famA 0 1 (by decide) (by decide)).1
      ⟨⟨0, 0x10, 0, 9, 7⟩, ⟨0xff, 0xff, 0xffff⟩⟩ (by decide) (by decide),
   (genlmsg_put_roundtrip nlmsg_put_fail () 7 9 famA 0 1 (by decide) (by decide)).2
      (by decide)⟩

/-- C13, counterexample: on an `nlmsg_put` that succeeds, the pointer returned by
`genlmsg_put` for `famA` is 16 bytes after the start of the message header, not
`NLMSG_HDRLEN + GENL_HDRLEN = 20`. -/
theorem genlmsg_put_cursor_not_after_header :
    (genlmsg_put nlmsg_put_ok () 7 9 famA 0 1).ret = some 16 ∧
    (genlmsg_put nlmsg_put_ok () 7 9 famA 0 1).ret ≠ some (NLMSG_HDRLEN + GENL_HDRLEN) := by
  decide

/-- C13, amended: for every successful call the pointer returned by `genlmsg_put`
is `nlmsg_data(nlh)`, the start of the generic header at offset
`NLMSG_HDRLEN = 16` from the start of the message header; that offset is a
multiple of 4 and the combined header ends `GENL_HDRLEN` bytes after it, at
offset 20, where the last store of `genlmsg_put` ends. -/
theorem genlmsg_put_cursor {mbuf : Type}
    (nlmsg_put : mbuf → Nat → Nat → Nat → Nat → Nat → Option nlmsg)
    (m : mbuf) (portid seq : Nat) (F : genl_family) (flags cmd : Nat) (nlh : nlmsg)
    (hput : nlmsg_put m portid seq F.id (GENL_HDRLEN + F.hdrsize) flags = some nlh) :
    (genlmsg_put nlmsg_put m portid seq F flags cmd).ret = some NLMSG_HDRLEN ∧
    NLMSG_HDRLEN = 16 ∧ NLMSG_HDRLEN % 4 = 0 ∧
    NLMSG_HDRLEN + GENL_HDRLEN = 20 ∧
    ∀ st ∈ (genlmsg_put nlmsg_put m portid seq F flags cmd).stores,
      NLMSG_HDRLEN ≤ st.off ∧ st.off + st.size ≤ NLMSG_HDRLEN + GENL_HDRLEN := by
  have h16 : NLMSG_HDRLEN = 16 := NLMSG_HDRLEN_eq
  have hres : genlmsg_put nlmsg_put m portid seq F flags cmd =
      ⟨some NLMSG_HDRLEN,
       some { nlh with genlmsg := ⟨cmd % 2 ^ 8, F.version % 2 ^ 8, 0⟩ },
       [⟨NLMSG_HDRLEN, 1, cmd % 2 ^ 8⟩, ⟨NLMSG_HDRLEN + 1, 1, F.version % 2 ^ 8⟩,
        ⟨NLMSG_HDRLEN + 2, 2, 0⟩]⟩ := by
    simp [genlmsg_put, hput, nlmsg_data]
  rw [hres]
  refine ⟨rfl, h16, by rw [h16], by rw [h16]; rfl, ?_⟩
  intro st hst
  simp only [List.mem_cons, List.mem_singleton, List.not_mem_nil, or_false] at hst
  rcases hst with rfl | rfl | rfl <;> simp [GENL_HDRLEN]

/-- Witness for C13, amended: command 1 of `famA` on an `nlmsg_put` that succeeds. -/
theorem genlmsg_put_cursor_witness :
    (genlmsg_put nlmsg_put_ok () 7 9 famA 0 1).ret = some NLMSG_HDRLEN :=
  (genlmsg_put_cursor nlmsg_put_ok () 7 9 famA 0 1
    ⟨⟨0, 0x10, 0, 9, 7⟩, ⟨0xff, 0xff, 0xffff⟩⟩ (by decide)).1

/-! ## Claims on alignment and on the attribute type word -/

theorem testBit_of_lt_two_pow_le (x n i : Nat) (hx : x < 2 ^ n) (hi : n ≤ i) :
    x.testBit i = false :=
  Nat.testBit_lt_two_pow (lt_of_lt_of_le hx (Nat.pow_le_pow_right (by norm_num) hi))

theorem land_clear_low2 (x : Nat) (hx : x < 2 ^ 32) :
    x &&& (2 ^ 32 - (3 + 1)) = 2 ^ 2 * (x / 2 ^ 2) := by
  apply Nat.eq_of_testBit_eq
  intro i
  have h3 : Nat.testBit 3 i = decide (i < 2) := by
    have := Nat.testBit_two_pow_sub_one 2 i
    simpa using this
  rw [Nat.testBit_and, Nat.testBit_two_pow_sub_succ (by norm_num), h3,
    Nat.testBit_mul_pow_two, ← Nat.shiftRight_eq_div_pow, Nat.testBit_shiftRight]
  by_cases h2 : i < 2
  · have : ¬ i ≥ 2 := by omega
    simp [h2, this]
  · have hge : i ≥ 2 := by omega
    have hidx : 2 + (i - 2) = i := by omega
    rw [hidx]
    by_cases h32 : i < 32
    · simp [h2, hge, h32]
    · have := testBit_of_lt_two_pow_le x 32 i hx (by omega)
      simp [this]

theorem land_clear_low2_eq (x : Nat) (hx : x < 2 ^ 32) :
    x &&& 4294967292 = x - x % 4 := by
  have := land_clear_low2 x hx
  norm_num at this
  rw [this]
  omega

theorem NLMSG_ALIGN_eq (n : Nat) :
    NLMSG_ALIGN n = (n + 3) % 2 ^ 32 - ((n + 3) % 2 ^ 32) % 4 := by
  have hlt : (n + 3) % 2 ^ 32 < 2 ^ 32 := Nat.mod_lt _ (by norm_num)
  have := land_clear_low2_eq ((n + 3) % 2 ^ 32) hlt
  simpa [NLMSG_ALIGN, NLMSG_ALIGNTO] using this

theorem int_not_three : int_not 3 = 4294967292 := by decide

theorem NLA_ALIGN_eq (n : Nat) : NLA_ALIGN n = NLMSG_ALIGN n := by
  simp [NLA_ALIGN, NLMSG_ALIGN, NLA_ALIGNTO, NLMSG_ALIGNTO, int_not_three]

/-- C14, counterexample: for the 32-bit length `2 ^ 32 - 1` the sum
`len + NLMSG_ALIGNTO - 1` wraps and `NLMSG_ALIGN` gives 0, which is less than
the length. -/
theorem NLMSG_ALIGN_wraps :
    (2 ^ 32 - 1 : Nat) < 2 ^ 32 ∧ NLMSG_ALIGN (2 ^ 32 - 1) = 0 ∧
    ¬ (2 ^ 32 - 1 ≤ NLMSG_ALIGN (2 ^ 32 - 1)) := by
  decide

/-- C14, amended: for every unsigned 32-bit length `n`, `NLMSG_ALIGN(n)` is a
multiple of 4 and less than `n + 4`, and `NLA_ALIGN(n)` is the same value; it is
not less than `n` when `n + 3` fits in 32 bits, that is for `n ≤ 2 ^ 32 - 4`, and
for the three larger lengths the sum wraps and the result is 0. -/
theorem NLMSG_ALIGN_round_up (n : Nat) (hn : n < 2 ^ 32) :
    NLMSG_ALIGN n % 4 = 0 ∧ NLMSG_ALIGN n < n + 4 ∧ NLA_ALIGN n = NLMSG_ALIGN n ∧
    (n + 3 < 2 ^ 32 → n ≤ NLMSG_ALIGN n) ∧
    (2 ^ 32 ≤ n + 3 → NLMSG_ALIGN n = 0) := by
  refine ⟨?_, ?_, NLA_ALIGN_eq n, ?_, ?_⟩ <;> rw [NLMSG_ALIGN_eq] <;> norm_num at hn ⊢ <;> omega

/-- Witness for C14, amended: the length 17 is rounded up to 20. -/
theorem NLMSG_ALIGN_round_up_witness :
    NLMSG_ALIGN 17 % 4 = 0 ∧ NLMSG_ALIGN 17 < 17 + 4 ∧ 17 ≤ NLMSG_ALIGN 17 :=
  ⟨(NLMSG_ALIGN_round_up 17 (by decide)).1,
   (NLMSG_ALIGN_round_up 17 (by decide)).2.1,
   (NLMSG_ALIGN_round_up 17 (by decide)).2.2.2.1 (by decide)⟩

theorem NLA_TYPE_MASK_eq : NLA_TYPE_MASK = 2 ^ 32 - (49152 + 1) := by decide

theorem testBit_49152 (i : Nat) : Nat.testBit 49152 i = (decide (15 = i) || decide (14 = i)) := by
  have h : (49152 : Nat) = 2 ^ 15 ||| 2 ^ 14 := by decide
  rw [h, Nat.testBit_or, Nat.testBit_two_pow, Nat.testBit_two_pow]

theorem land_type_mask (t : Nat) (ht : t < 2 ^ 16) : t &&& NLA_TYPE_MASK = t % 2 ^ 14 := by
  apply Nat.eq_of_testBit_eq
  intro i
  rw [NLA_TYPE_MASK_eq, Nat.testBit_and, Nat.testBit_two_pow_sub_succ (by norm_num),
    testBit_49152, Nat.testBit_mod_two_pow]
  by_cases h16 : i < 16
  · by_cases h14 : i < 14
    · have h1 : ¬ 15 = i := by omega
      have h2 : ¬ 14 = i := by omega
      have h3 : i < 32 := by omega
      simp [h14, h1, h2, h3]
    · have h1 : 15 = i ∨ 14 = i := by omega
      rcases h1 with h1 | h1 <;> subst h1 <;> simp
  · have := testBit_of_lt_two_pow_le t 16 i ht (by omega)
    have h14 : ¬ i < 14 := by omega
    simp [this, h14]

theorem nla_type_split (t : Nat) (ht : t < 2 ^ 16) :
    t = (t &&& NLA_F_NESTED) ||| (t &&& NLA_F_NET_BYTEORDER) ||| (t &&& NLA_TYPE_MASK) := by
  apply Nat.eq_of_testBit_eq
  intro i
  have hN : NLA_F_NESTED = 2 ^ 15 := by decide
  have hO : NLA_F_NET_BYTEORDER = 2 ^ 14 := by decide
  rw [land_type_mask t ht, hN, hO]
  simp only [Nat.testBit_or, Nat.testBit_and, Nat.testBit_two_pow, Nat.testBit_mod_two_pow]
  by_cases h16 : i < 16
  · by_cases h14 : i < 14
    · have h1 : ¬ 15 = i := by omega
      have h2 : ¬ 14 = i := by omega
      simp [h14, h1, h2]
    · have h1 : 15 = i ∨ 14 = i := by omega
      rcases h1 with h1 | h1 <;> subst h1 <;> simp
  · have := testBit_of_lt_two_pow_le t 16 i ht (by omega)
    simp [this]

/-- C15: the masks `NLA_F_NESTED`, `NLA_F_NET_BYTEORDER` and `NLA_TYPE_MASK` are
pairwise disjoint and together cover the 16 bits of an attribute type word; for
every 16-bit `t`, `t & NLA_TYPE_MASK` is less than `2 ^ 14` and `t` is the bitwise
or of its three masked parts. -/
theorem nla_type_masks_partition (t : Nat) (ht : t < 2 ^ 16) :
    NLA_F_NESTED &&& NLA_F_NET_BYTEORDER = 0 ∧
    NLA_F_NESTED &&& NLA_TYPE_MASK = 0 ∧
    NLA_F_NET_BYTEORDER &&& NLA_TYPE_MASK = 0 ∧
    (NLA_F_NESTED ||| NLA_F_NET_BYTEORDER ||| NLA_TYPE_MASK) &&& (2 ^ 16 - 1) = 2 ^ 16 - 1 ∧
    t &&& NLA_TYPE_MASK < 2 ^ 14 ∧
    t = (t &&& NLA_F_NESTED) ||| (t &&& NLA_F_NET_BYTEORDER) ||| (t &&& NLA_TYPE_MASK) := by
  refine ⟨by decide, by decide, by decide, by decide, ?_, nla_type_split t ht⟩
  rw [land_type_mask t ht]
  exact Nat.mod_lt _ (by norm_num)

/-- Witness for C15: the type word `0xC005`, nested and network-byte-order flags
set, type id 5. -/
theorem nla_type_masks_partition_witness :
    0xC005 &&& NLA_TYPE_MASK < 2 ^ 14 ∧
    0xC005 = (0xC005 &&& NLA_F_NESTED) ||| (0xC005 &&& NLA_F_NET_BYTEORDER) |||
      (0xC005 &&& NLA_TYPE_MASK) :=
  ⟨(nla_type_masks_partition 0xC005 (by decide)).2.2.2.2.1,
   (nla_type_masks_partition 0xC005 (by decide)).2.2.2.2.2⟩

/-! ## Claims on memory reads, the frame of the dispatch, locking and `genl_get_cmd` -/

theorem receive_family_traced_eq (l : List genl_family) (family : genl_family) (msg : nlmsg) :
    genl_receive_message_family_traced l family msg =
      ⟨EOPNOTSUPP, [Event.family family], [read_genl_cmd], l⟩ := by
  simp [genl_receive_message_family_traced, get_cmd_ne_zero]

theorem receive_traced_eq (l : List genl_family) (data : nlmsg) :
    ((genl_receive_message_traced l data).status, (genl_receive_message_traced l data).events) =
      genl_receive_message l data := by
  cases hfind : genl_find_family_by_id l data.nlh.nlmsg_type with
  | none => simp [genl_receive_message_traced, genl_receive_message, hfind]
  | some cur =>
    by_cases hlt : data.nlh.nlmsg_len < NLMSG_HDRLEN + GENL_HDRLEN
    · simp [genl_receive_message_traced, genl_receive_message, hfind, hlt]
    · simp [genl_receive_message_traced, genl_receive_message, hfind, hlt,
        receive_family_traced_eq, receive_family_eq]

/-- The reads of `genl_receive_message` when the family is found and the declared
`nlmsg_len` is at least `NLMSG_HDRLEN + GENL_HDRLEN`: the type, the length and
then the `cmd` byte at offset `NLMSG_HDRLEN`, whatever the actual length of the
received buffer, which is no argument of the function. -/
theorem genl_receive_message_reads_cmd (l : List genl_family) (F : genl_family) (data : nlmsg)
    (hF : genl_find_family_by_id l data.nlh.nlmsg_type = some F)
    (hlen : NLMSG_HDRLEN + GENL_HDRLEN ≤ data.nlh.nlmsg_len) :
    (genl_receive_message_traced l data).reads =
      [read_nlmsg_type, read_nlmsg_len, read_genl_cmd] := by
  have hnlt : ¬ data.nlh.nlmsg_len < NLMSG_HDRLEN + GENL_HDRLEN := not_lt.mpr hlen
  simp [genl_receive_message_traced, hF, hnlt, receive_family_traced_eq]

/-- The reads of `genl_receive_message` end at or before `buflen` when the buffer
has at least 16 bytes and the declared `nlmsg_len` does not exceed `buflen`. -/
theorem genl_receive_message_reads_in_bounds (l : List genl_family) (data : nlmsg)
    (buflen : Nat) (h16 : 16 ≤ buflen) (hlen : data.nlh.nlmsg_len ≤ buflen) :
    ∀ r ∈ (genl_receive_message_traced l data).reads, r.off + r.size ≤ buflen := by
  have hH : NLMSG_HDRLEN = 16 := NLMSG_HDRLEN_eq
  intro r hr
  cases hfind : genl_find_family_by_id l data.nlh.nlmsg_type with
  | none =>
    simp [genl_receive_message_traced, hfind] at hr
    subst hr
    simp only [read_nlmsg_type]
    omega
  | some cur =>
    by_cases hlt : data.nlh.nlmsg_len < NLMSG_HDRLEN + GENL_HDRLEN
    · simp [genl_receive_message_traced, hfind, hlt] at hr
      rcases hr with rfl | rfl
      · simp only [read_nlmsg_type]; omega
      · simp only [read_nlmsg_len]; omega
    · simp [genl_receive_message_traced, hfind, hlt, receive_family_traced_eq] at hr
      rw [hH] at hlt
      simp only [GENL_HDRLEN] at hlt
      rcases hr with rfl | rfl | rfl
      · simp only [read_nlmsg_type]; omega
      · simp only [read_nlmsg_len]; omega
      · simp only [read_genl_cmd, hH]; omega

/-- C16: evaluation of the code at a received buffer of 16 bytes whose header
declares `nlmsg_len = 20` and the type of the registered `famA`. The declared
length exceeds the actual length 16, the guard on `nlmsg_len` lets the message
pass, and the dispatch reads the `cmd` byte at offset 16, the first byte past
the buffer's end, before it returns `EOPNOTSUPP`. -/
theorem genl_receive_message_reads_past_buffer :
    msgDoit.nlh.nlmsg_len = 20 ∧
    16 < msgDoit.nlh.nlmsg_len ∧
    genl_find_family_by_id [famA] msgDoit.nlh.nlmsg_type = some famA ∧
    (genl_receive_message_traced [famA] msgDoit).reads =
      [read_nlmsg_type, read_nlmsg_len, read_genl_cmd] ∧
    read_genl_cmd ∈ (genl_receive_message_traced [famA] msgDoit).reads ∧
    read_genl_cmd.off = 16 ∧
    16 < read_genl_cmd.off + read_genl_cmd.size ∧
    (genl_receive_message_traced [famA] msgDoit).status = EOPNOTSUPP ∧
    genl_receive_message [famA] msgDoit = (EOPNOTSUPP, [Event.family famA]) := by
  decide

/-- C17: `genl_receive_message` leaves the global `genl_family_list` as it found
it, whatever the message and the status returned, and the traced run returns
the status and events of `genl_receive_message`; `genl_register_family` and
`genl_unregister_family` do change the list. -/
theorem genl_receive_message_frame (l : List genl_family) (data : nlmsg) :
    (genl_receive_message_traced l data).genl_family_list = l ∧
    ((genl_receive_message_traced l data).status, (genl_receive_message_traced l data).events) =
      genl_receive_message l data ∧
    (genl_register_family [] famA).2 ≠ [] ∧
    (genl_unregister_family [famA] famA).2 ≠ [famA] := by
  refine ⟨?_, receive_traced_eq l data, by decide, by decide⟩
  cases hfind : genl_find_family_by_id l data.nlh.nlmsg_type with
  | none => simp [genl_receive_message_traced, hfind]
  | some cur =>
    by_cases hlt : data.nlh.nlmsg_len < NLMSG_HDRLEN + GENL_HDRLEN
    · simp [genl_receive_message_traced, hfind, hlt]
    · simp [genl_receive_message_traced, hfind, hlt, receive_family_traced_eq]

/-- C18: evaluation of the code. Each of the four registry operations, on every
registry and argument, makes its first load of `genl_family_list` without
holding `genl_mtx`: the two lookups and `genl_unregister_family` never take the
mutex, and `genl_register_family` takes it only around the insertion. On the
registry that holds `famA`, unregistering `famA` is a load and a store with no
lock, and registering `famC` on the empty registry is a load before the lock. -/
theorem genl_registry_accesses_unlocked (l : List genl_family) (f : genl_family) :
    guarded false (genl_find_family_by_id_acc l f.id) = false ∧
    guarded false (genl_find_family_by_name_acc l f.name) = false ∧
    guarded false (genl_register_family_acc l f) = false ∧
    guarded false (genl_unregister_family_acc l f) = false ∧
    genl_unregister_family_acc [famA] famA = [Access.read, Access.write] ∧
    genl_register_family_acc [] famC =
      [Access.read, Access.lock, Access.write, Access.unlock] := by
  refine ⟨?_, ?_, ?_, ?_, by decide, by decide⟩
  · cases l <;> simp [genl_find_family_by_id_acc, guarded]
  · cases l <;> simp [genl_find_family_by_name_acc, guarded]
  · cases l <;> simp [genl_register_family_acc, genl_find_family_by_name_acc, guarded]
  · cases l <;> simp [genl_unregister_family_acc, genl_find_family_by_id_acc, guarded]

/-- C19: `genl_get_cmd` returns `ENOENT` for every command, family and `ops`
argument; so `genl_receive_message` returns `ENOENT` when no registered family
has the id `nlmsg_type`, otherwise `EBADMSG` when
`nlmsg_len < NLMSG_HDRLEN + GENL_HDRLEN = 20`, otherwise `EOPNOTSUPP`; it never
returns 0 or `EINVAL` and never enters the doit or the dumpit function. -/
theorem genl_receive_message_status (l : List genl_family) (data : nlmsg) :
    (∀ cmd family ops, genl_get_cmd cmd family ops = ENOENT) ∧
    NLMSG_HDRLEN + GENL_HDRLEN = 20 ∧
    (genl_receive_message l data).1 =
      (if ∀ f ∈ l, f.id ≠ data.nlh.nlmsg_type then ENOENT
       else if data.nlh.nlmsg_len < NLMSG_HDRLEN + GENL_HDRLEN then EBADMSG
       else EOPNOTSUPP) ∧
    (genl_receive_message l data).1 ≠ 0 ∧
    (genl_receive_message l data).1 ≠ EINVAL ∧
    (∀ op, Event.doit op ∉ (genl_receive_message l data).2) ∧
    (∀ op, Event.dumpit op ∉ (genl_receive_message l data).2) := by
  refine ⟨fun _ _ _ => rfl, by decide, ?_⟩
  cases hfind : genl_find_family_by_id l data.nlh.nlmsg_type with
  | none =>
    have hno := (find_by_id_eq_none_iff l _).mp hfind
    have hr : genl_receive_message l data = (ENOENT, []) := by
      simp [genl_receive_message, hfind]
    rw [hr, if_pos hno]
    simp [ENOENT, EINVAL]
  | some cur =>
    have hex : ¬ ∀ f ∈ l, f.id ≠ data.nlh.nlmsg_type := by
      intro hno
      rw [(find_by_id_eq_none_iff l _).mpr hno] at hfind
      exact Option.noConfusion hfind
    rw [if_neg hex]
    by_cases hlt : data.nlh.nlmsg_len < NLMSG_HDRLEN + GENL_HDRLEN
    · have hr : genl_receive_message l data = (EBADMSG, []) := by
        simp [genl_receive_message, hfind, hlt]
      rw [hr, if_pos hlt]
      simp [EBADMSG, EINVAL]
    · have hr : genl_receive_message l data = (EOPNOTSUPP, [Event.family cur]) := by
        simp [genl_receive_message, hfind, hlt, receive_family_eq]
      rw [hr, if_neg hlt]
      simp [EOPNOTSUPP, EINVAL]

end Genetlink
